import Mathlib

set_option autoImplicit false

/-!
Shallow embedding of the form-validation module of `front-library`
(`src/unnamed/part_000`, exporting `Validator`, `addValidator` and
`validatorTools`), together with the `date` validator of
`src/Modules/Validator/date.js`.

JavaScript string-valued slots that may be `undefined` are modelled as
`Option String` (`none` = `undefined` / absent object key); JS objects used
as string dictionaries are modelled by their lookup functions.
-/

namespace FrontLib

/-- Truthiness of a JS value that is either a string or `undefined`:
`undefined` and the empty string are falsy, every other string truthy. -/
def jsStrTruthy : Option String → Bool
  | some s => s != ""
  | none => false

/-- Message configuration visible to `labelToMessage` inside an `Input`:
the `inlineCustomErrorMessages` dictionary built by the `Input` constructor
from the field's attributes, and the global `options.errorMessages`
mapping. A key absent from the JS object is `none`. -/
structure MsgEnv where
  inlineCustomErrorMessages : String → Option String
  errorMessages : String → Option String

/-- Embedding of `labelToMessage(validatorName, _locale, avoidDefaultMessage)`
(`src/unnamed/part_000` lines 626-671). `locale` is the `_locale`
argument, `none` when the caller passed nothing; each JS truthiness test
(`if (forcedJSMessage)` etc.) is `jsStrTruthy`. -/
def labelToMessage (env : MsgEnv) (validatorName : String)
    (locale : Option (String → Option String)) (avoidDefaultMessage : Bool) : String :=
  let customInlineDefaultMessage : Option String :=
    if !avoidDefaultMessage then env.inlineCustomErrorMessages "default" else none
  let customErrorDefaultMessage : Option String :=
    if !avoidDefaultMessage then env.errorMessages "default" else none
  let forcedJSMessage : Option String :=
    match locale with
    | some l => l validatorName
    | none => none
  if jsStrTruthy forcedJSMessage then forcedJSMessage.getD "" else
  let customInlineMessage0 : Option String := env.inlineCustomErrorMessages validatorName
  let customInlineMessage : Option String :=
    if jsStrTruthy customInlineMessage0 then
      let mapped := env.errorMessages (customInlineMessage0.getD "")
      if jsStrTruthy mapped then mapped else customInlineMessage0
    else customInlineMessage0
  if jsStrTruthy customInlineMessage then customInlineMessage.getD "" else
  let customErrorMessage : Option String := env.errorMessages validatorName
  if jsStrTruthy customErrorMessage then customErrorMessage.getD "" else
  if jsStrTruthy customInlineDefaultMessage then customInlineDefaultMessage.getD ""
  else if jsStrTruthy customErrorDefaultMessage then customErrorDefaultMessage.getD ""
  else validatorName

/-- Embedding of the `inlineCustomErrorMessages` setup in the `Input`
constructor (`src/unnamed/part_000` lines 533-552). `attrs` models
`$input.getAttribute` (`none` when the attribute is absent, so
`$input.hasAttribute(k)` is `(attrs k).isSome`), `pfx` is
`options.customErrorLabelPrefix` and `names` lists the names of the
validators matched for this field, in registration order. The JS object is
modelled as its lookup function; the per-validator loop runs after the
`"default"` assignment, so for a validator literally named `"default"` the
attribute entry shadows it. Note the `"default"` entry stores
`options.errorMessages[$input.getAttribute(pfx)]`, not the raw attribute
value. -/
def mkInlineCustomErrorMessages (errorMessages : String → Option String)
    (pfx : String) (attrs : String → Option String) (names : List String) :
    String → Option String :=
  fun key =>
    if names.contains key && (attrs (pfx ++ "-" ++ key)).isSome then
      attrs (pfx ++ "-" ++ key)
    else if key == "default" && (attrs pfx).isSome then
      errorMessages ((attrs pfx).getD "")
    else none

/-- Precedence chain of the amended C1, written as the corrected spec words
it: (a) forced locale message, (b) inline per-validator attribute (its
value first looked up as a key of `errorMessages`), (c) the validator-name
keyed global entry, (d) the inline default attribute entry, (e) the global
`"default"` entry, (f) the raw validator name. To be compared with
`labelToMessage` called with `avoidDefaultMessage = false`. -/
def specResolveMessage (env : MsgEnv) (validatorName : String)
    (locale : Option (String → Option String)) : String :=
  let forced : Option String :=
    match locale with
    | some l => l validatorName
    | none => none
  if jsStrTruthy forced then forced.getD "" else
  let inl : Option String := env.inlineCustomErrorMessages validatorName
  if jsStrTruthy inl then
    (let mapped := env.errorMessages (inl.getD "")
     if jsStrTruthy mapped then mapped.getD "" else inl.getD "")
  else
  let glob : Option String := env.errorMessages validatorName
  if jsStrTruthy glob then glob.getD "" else
  let inlDef : Option String := env.inlineCustomErrorMessages "default"
  if jsStrTruthy inlDef then inlDef.getD "" else
  let globDef : Option String := env.errorMessages "default"
  if jsStrTruthy globDef then globDef.getD "" else validatorName

/-- Result object a validator function fulfills with (the `_state` received
by `InputValidator.validate`, see `createState` and the validator
contract): slots the function may omit are `Option` (`none` = absent). -/
structure VResultState where
  isValid : Bool
  extraMessages : Option (List String) := none
  extraErrorMessages : Option (List String) := none
  data : Option Nat := none
deriving DecidableEq

/-- Observable state of one `InputValidator` (`src/unnamed/part_000` lines
397-447): the validator name, the `state` closure variable (`none` until
the first fulfilled run), and the `extraMessages` / `extraErrorMessages` /
`data` instance fields. -/
structure IVState where
  name : String
  state : Option VResultState
  extraMessages : List String
  extraErrorMessages : List String
  data : Option Nat
deriving DecidableEq

/-- JS value returned by `InputValidator.isValid`: `state && state.isValid`
is `undefined` before the first completed run and the stored flag after. -/
inductive JSVal where
  | undef
  | jsBool (b : Bool)
deriving DecidableEq

/-- JS truthiness of a `JSVal`: `undefined` is falsy. -/
def JSVal.truthy : JSVal → Bool
  | JSVal.undef => false
  | JSVal.jsBool b => b

/-- Embedding of `InputValidator.isValid` (`src/unnamed/part_000` lines
440-442): `return state && state.isValid`. -/
def ivIsValid (iv : IVState) : JSVal :=
  match iv.state with
  | none => JSVal.undef
  | some st => JSVal.jsBool st.isValid

/-- Outcome of the call `validateFunc($input, value, validatorOptions)`
inside `InputValidator.validate`: the function returns a promise that
fulfills with a state, returns a promise that rejects, or throws
synchronously before returning any promise. -/
inductive VFOutcome where
  | fulfilled (st : VResultState)
  | rejectedFn
  | threwFn
deriving DecidableEq

/-- How a promise was settled. -/
inductive SettleKind where
  | resolve
  | reject
deriving DecidableEq

/-- Result of one call to `InputValidator.validate`: the new observable
state, the fate of the deferred promise the call returns (`none` when
nothing in the code ever settles it), and whether the call itself threw
before returning that promise. -/
structure IVRunResult where
  newState : IVState
  promFate : Option SettleKind
  threw : Bool
deriving DecidableEq

/-- Embedding of `InputValidator.validate` (`src/unnamed/part_000` lines
416-438). The instance fields are cleared, then `validateFunc` is called;
only a fulfilled validator promise runs the `.then` callback, which stores
the state (`_state.extraMessages || SELF.extraMessages`, where the cleared
`[]` is the fallback, an empty JS array being truthy) and calls
`prom.resolve()`. No rejection handler is attached, so a rejected
validator promise leaves `prom` unsettled; a synchronous throw propagates
out of `validate()` before `prom` is returned. `prom.reject` is never
called on any path. -/
def ivValidate (iv : IVState) (outcome : VFOutcome) : IVRunResult :=
  let iv0 : IVState := { iv with extraMessages := [], extraErrorMessages := [], data := none }
  match outcome with
  | VFOutcome.threwFn => ⟨iv0, none, true⟩
  | VFOutcome.rejectedFn => ⟨iv0, none, false⟩
  | VFOutcome.fulfilled st =>
      ⟨{ iv0 with
          state := some st,
          extraMessages := st.extraMessages.getD iv0.extraMessages,
          extraErrorMessages := st.extraErrorMessages.getD iv0.extraErrorMessages,
          data := st.data },
        some SettleKind.resolve, false⟩

/-- Kind tag of one entry of `getErrorMessages`. -/
inductive MsgType where
  | basic
  | extra
deriving DecidableEq

/-- One entry of the list returned by `Input.getErrorMessages`. -/
structure Msg where
  message : String
  label : String
  type : MsgType
deriving DecidableEq

/-- Modelled from the spec: the `unique` helper imported from
`front-library/Helpers/unique`, whose source is not under `src/`. Per the
spec the message list "is then deduplicated by message text, preserving
first occurrence order": walking the list left to right, an element is
kept exactly when the callback returns true against the already-kept
elements. -/
def uniqueBy {α : Type} (keep : α → List α → Bool) (l : List α) : List α :=
  l.foldl (fun acc e => if keep e acc then acc ++ [e] else acc) []

/-- Embedding of `Input.getErrors` (`src/unnamed/part_000` lines 608-624):
the field's validators, in registry-resolution order, restricted to those
whose `isValid()` is not truthy; the `_hasValidator` early return is the
`length = 0` branch (`_hasValidator` is `validators.length > 0`). -/
def getErrors (validators : List IVState) : List IVState :=
  if validators.length = 0 then []
  else validators.filter (fun v => !(ivIsValid v).truthy)

/-- Embedding of `Input.getErrorMessages(_locale)` (`src/unnamed/part_000`
lines 676-713): for each failing validator push one `basic` entry
(resolved from the validator name), then one `extra` entry per extra error
message it raised (resolved with `avoidDefaultMessage = true`); finally
the list is deduplicated by message text with `unique`, keeping first
occurrences. -/
def getErrorMessages (env : MsgEnv) (validators : List IVState)
    (locale : Option (String → Option String)) : List Msg :=
  let validatorsInErrors := getErrors validators
  if validatorsInErrors.length = 0 then []
  else
    let messages : List Msg := validatorsInErrors.foldl
      (fun acc v =>
        acc ++
          (Msg.mk (labelToMessage env v.name locale false) v.name MsgType.basic ::
            v.extraErrorMessages.map
              (fun m => Msg.mk (labelToMessage env m locale true) v.name MsgType.extra)))
      []
    uniqueBy (fun e acc => !(acc.any (fun r => r.message == e.message))) messages

/-- Spec-side view of the raw (pre-deduplication) message list: for each
failing validator one basic entry followed by its extra entries, flattened
in order. -/
def specRawMessages (env : MsgEnv) (locale : Option (String → Option String))
    (errs : List IVState) : List Msg :=
  errs.flatMap
    (fun v =>
      Msg.mk (labelToMessage env v.name locale false) v.name MsgType.basic ::
        v.extraErrorMessages.map
          (fun m => Msg.mk (labelToMessage env m locale true) v.name MsgType.extra))

/-- Spec-side deduplication by message text, keeping the first occurrence
of each message. -/
def dedupByMessage : List Msg → List Msg
  | [] => []
  | m :: rest => m :: dedupByMessage (rest.filter (fun r => r.message != m.message))
termination_by l => l.length
decreasing_by
  simp only [List.length_cons]
  exact Nat.lt_succ_of_le (List.length_filter_le _ _)

/-- One candidate field element as seen by `refresh`: its `type` and
`name` attributes, and whether it matches the `options.filter` exclusion
selector. -/
structure FieldElem where
  type : String
  name : String
  filtered : Bool
deriving DecidableEq

/-- Embedding of `addInput`/`filterRadioButton` applied along the candidate
list (`src/unnamed/part_000` lines 780-810): an element matching
`options.filter` is skipped (and, by `&&` short-circuit, does not touch
`radioDuplicateHash`); a non-radio element is kept; a radio whose `name`
is already a key of `radioDuplicateHash` is skipped, otherwise its name is
recorded and it is kept. Every kept element becomes one `Input` of
`inputsList`. -/
def addInputs (radioDuplicateHash : List String) : List FieldElem → List FieldElem
  | [] => []
  | e :: rest =>
    if e.filtered then addInputs radioDuplicateHash rest
    else if e.type != "radio" then e :: addInputs radioDuplicateHash rest
    else if radioDuplicateHash.contains e.name then addInputs radioDuplicateHash rest
    else e :: addInputs (e.name :: radioDuplicateHash) rest

/-- Embedding of `refresh` (`src/unnamed/part_000` lines 815-823; `update`
just calls it): `cleanup()` empties `inputsList` and resets
`radioDuplicateHash`, then every candidate returned by the
`options.fields` query runs through `addInput`. -/
def refresh (candidates : List FieldElem) : List FieldElem :=
  addInputs [] candidates

/-- Run flag of a `Validator` instance (`STATE_IDLE` / `STATE_VALIDATING`). -/
inductive RunState where
  | idle
  | validating
deriving DecidableEq

/-- One `Input` wrapper held in `inputsList`, identified by its `$input`
element (elements are modelled by numeric identities). -/
structure InputW where
  el : Nat
deriving DecidableEq

/-- State of one `Validator` instance: the run flag, the current
`inputsList`, the container identity, and whether the `onValidate` /
`onInvalidate` callbacks were provided in the options. -/
structure FormState where
  run : RunState
  inputs : List InputW
  formId : Nat
  hasOnValidate : Bool
  hasOnInvalidate : Bool
deriving DecidableEq

/-- The `retObject` built by `process` and `validateField`. -/
structure RetObject where
  inputs : List InputW
  errors : List InputW
  formId : Nat
deriving DecidableEq

/-- Settlement of a promise: `prom.resolve(r)` or `prom.reject(r)`. The
code settles by calling these deferred methods, never by throwing. -/
inductive Settlement where
  | resolved (r : RetObject)
  | rejected (r : RetObject)
deriving DecidableEq

/-- Which user callback was invoked. -/
inductive CB where
  | onValidate
  | onInvalidate
deriving DecidableEq

/-- Embedding of the `.then` continuation of `process`
(`src/unnamed/part_000` lines 856-879), which runs once the `_validate()`
barrier resolves (all constituent validators settled). `hasErrorF i` is
the `hasError` flag of wrapper `i` after its `isValid()` completed.
Returns the new state (the run flag is put back to idle first), the
settlement of `prom`, and the list of callbacks invoked (a callback fires
only when provided in the options). -/
def processSettle (s : FormState) (hasErrorF : InputW → Bool) :
    FormState × Settlement × List CB :=
  let errors := s.inputs.filter hasErrorF
  let s1 : FormState := { s with run := RunState.idle }
  let retObject : RetObject := ⟨s.inputs, [], s.formId⟩
  if errors.length ≠ 0 then
    (s1, Settlement.rejected { retObject with errors := errors },
      if s.hasOnInvalidate then [CB.onInvalidate] else [])
  else
    (s1, Settlement.resolved retObject,
      if s.hasOnValidate then [CB.onValidate] else [])

/-- Embedding of one complete `validate()` call (`src/unnamed/part_000`
lines 900-905 guarding `process`, lines 845-888), under the assumption
that every constituent validator settles. Returns the new state, the fate
of the promise returned to the caller (`none` models the guard's
`return defer()`: a fresh deferred whose resolve/reject nothing in the
code ever calls), the list of inputs whose `isValid()` was started by
`_validate()`, and the callbacks fired. -/
def validateRun (s : FormState) (hasErrorF : InputW → Bool) :
    FormState × Option Settlement × List InputW × List CB :=
  if s.run ≠ RunState.idle then
    (s, none, [], [])
  else
    let res := processSettle { s with run := RunState.validating } hasErrorF
    (res.1, some res.2.1, s.inputs, res.2.2)

/-- Embedding of `Validator.getFieldValidator` (`src/unnamed/part_000`
lines 928-939): linear scan of `inputsList`, first wrapper whose `$input`
is the given element. -/
def getFieldValidator (inputs : List InputW) (el : Nat) : Option InputW :=
  inputs.find? (fun i => i.el == el)

/-- Result of the synchronous part of `validateField`: either
`Promise.resolve()` was returned at once without touching anything, or a
pending deferred was returned after starting `input.isValid()` on the
named wrapper. -/
inductive VFStart where
  | resolvedEmpty
  | started (i : InputW)
deriving DecidableEq

/-- Embedding of the synchronous part of `validateField($field)`
(`src/unnamed/part_000` lines 952-970): look the wrapper up with
`getFieldValidator`; when there is none, return `Promise.resolve()` before
touching the run flag; otherwise set the run flag to validating
(unconditionally — no idle check is made) and start that wrapper's
`isValid()`. -/
def validateFieldStart (s : FormState) (el : Nat) : FormState × VFStart :=
  match getFieldValidator s.inputs el with
  | none => (s, VFStart.resolvedEmpty)
  | some input => ({ s with run := RunState.validating }, VFStart.started input)

/-- Split of a character list on a one-character separator (model of the
JS `String.prototype.split` with a one-character separator string, applied
to the string's characters). -/
def splitChars (sep : Char) : List Char → List (List Char)
  | [] => [[]]
  | c :: rest =>
    match splitChars sep rest with
    | [] => [[]]
    | g :: gs => if c == sep then [] :: g :: gs else (c :: g) :: gs

/-- Model of the JS unary `+` coercion on one split component, given as its
character list: `none` models `NaN`. Modelled for the components a date
string splits into: the empty string coerces to `0`, a digit string to its
value, anything else to `NaN`. -/
def jsToNumChars (cs : List Char) : Option Int :=
  if cs.isEmpty then some 0
  else if cs.all Char.isDigit then
    some ((cs.foldl (fun n c => 10 * n + (c.toNat - 48)) 0 : Nat) : Int)
  else none

/-- Whether a Gregorian year is a leap year. -/
def isLeapYear (y : Int) : Bool :=
  (y % 4 == 0 && y % 100 != 0) || y % 400 == 0

/-- Days since 1970-01-01 of the civil date `(y, m, d)` with `m` 1-based,
proleptic Gregorian calendar (model of the JS `Date` time arithmetic). -/
def daysFromCivil (y m d : Int) : Int :=
  let y1 := if m ≤ 2 then y - 1 else y
  let era := Int.ediv y1 400
  let yoe := y1 - era * 400
  let mp := if m > 2 then m - 3 else m + 9
  let doy := Int.ediv (153 * mp + 2) 5 + d - 1
  let doe := yoe * 365 + Int.ediv yoe 4 - Int.ediv yoe 100 + doy
  era * 146097 + doe - 719468

/-- Civil date `(y, m, d)` (`m` 1-based) of a count of days since
1970-01-01, proleptic Gregorian calendar. -/
def civilFromDays (z : Int) : Int × Int × Int :=
  let z1 := z + 719468
  let era := Int.ediv z1 146097
  let doe := z1 - era * 146097
  let yoe := Int.ediv (doe - Int.ediv doe 1460 + Int.ediv doe 36524 - Int.ediv doe 146096) 365
  let y := yoe + era * 400
  let doy := doe - (365 * yoe + Int.ediv yoe 4 - Int.ediv yoe 100)
  let mp := Int.ediv (5 * doy + 2) 153
  let d := doy - Int.ediv (153 * mp + 2) 5 + 1
  let m := if mp < 10 then mp + 3 else mp - 9
  (if m ≤ 2 then y + 1 else y, m, d)

/-- Model of the JS `new Date(y, m0, d)` constructor normalisation (month
argument 0-based; any overflow of month or day rolls over), including the
JS quirk that a year argument in 0..99 is taken as 1900 + year. Returns
`(getFullYear(), getMonth(), getDate())` of the constructed date, with the
month 0-based again. -/
def jsDateNorm (y m0 d : Int) : Int × Int × Int :=
  let yy := if 0 ≤ y && y ≤ 99 then y + 1900 else y
  let ym := yy + Int.ediv m0 12
  let mm := Int.emod m0 12
  let total := daysFromCivil ym (mm + 1) 1 + (d - 1)
  let c := civilFromDays total
  (c.1, c.2.1 - 1, c.2.2)

/-- Embedding of `isDate(value, format)` (`src/unnamed/part_000` lines
341-377): pick the separator (code point 47 is the slash, 45 the dash),
split value and format on it, require equal component counts, read the
y/m/d components by the position of the format letters (code points 121,
109, 100; a missing letter gives an out-of-range index, hence `undefined`
then `NaN`, modelled by `none`), build the date and require that the
read-back day, month and year still equal the parsed components (`NaN`
never compares equal, so any `none` yields `false`). -/
def isDate (value : String) (format : String) : Bool :=
  let sep : Char := if format.data.contains (Char.ofNat 47) then Char.ofNat 47 else Char.ofNat 45
  let splittedFormat := splitChars sep format.data
  let splittedValues := splitChars sep value.data
  if splittedValues.length != splittedFormat.length then false
  else
    let comp := fun (idx : Nat) => (splittedValues.get? idx).bind jsToNumChars
    match comp (splittedFormat.indexOf [Char.ofNat 121]),
        comp (splittedFormat.indexOf [Char.ofNat 109]),
        comp (splittedFormat.indexOf [Char.ofNat 100]) with
    | some y, some m1, some d =>
        let m := m1 - 1
        let c := jsDateNorm y m d
        c.2.2 == d && c.2.1 == m && c.1 == y
    | _, _, _ => false

/-- Embedding of the `date` validator function
(`src/Modules/Validator/date.js` lines 8-21): the `isValid` flag it passes
to `standardValidation` is `value === '' || isDate(value, format)` where
`format` is the field's `data-date-control` attribute. -/
def dateValidatorIsValid (value : String) (format : String) : Bool :=
  value == "" || isDate value format

/-- Empty message environment: no inline attributes, no configured
`errorMessages`. -/
def emptyMsgEnv : MsgEnv := ⟨fun _ => none, fun _ => none⟩

/-- Attributes of a field carrying only the inline default override
attribute `data-error-label="DEF"`. -/
def c1Attrs : String → Option String := fun k =>
  if k == "data-error-label" then some "DEF" else none

/-- Global `errorMessages` configuration holding an entry for the inline
default key `"DEF"` and a validator-name keyed entry for `"required"`. -/
def c1ErrorMessages : String → Option String := fun k =>
  if k == "DEF" then some "msgInlineDefault"
  else if k == "required" then some "msgGlobal"
  else none

/-- Message environment of a field with the `required` validator, the
inline default attribute populated (level (c) of the claimed chain) and
the validator-name keyed global entry populated (level (d)), the forced
locale and the per-validator attribute left empty. -/
def c1Env : MsgEnv :=
  ⟨mkInlineCustomErrorMessages c1ErrorMessages "data-error-label" c1Attrs ["required"],
    c1ErrorMessages⟩

/-- A `Validator` whose run flag is `validating`, holding one field
wrapper. -/
def c4State : FormState := ⟨RunState.validating, [⟨1⟩], 0, false, false⟩

theorem addInputs_filter_radio (es : List FieldElem) (n : String) :
    ∀ hash : List String,
    (addInputs hash es).filter (fun f => f.type == "radio" && f.name == n) =
      if n ∈ hash then []
      else (es.filter (fun e => !e.filtered && (e.type == "radio" && e.name == n))).take 1 := by
  induction es with
  | nil => intro hash; by_cases h : n ∈ hash <;> simp [addInputs, h]
  | cons e rest ih =>
    intro hash
    by_cases hf : e.filtered
    · by_cases h : n ∈ hash <;>
        simpa [addInputs, hf, h, List.filter_cons] using ih hash
    · by_cases ht : e.type = "radio"
      · by_cases hn : e.name = n
        · subst hn
          by_cases hh : e.name ∈ hash
          · simpa [addInputs, hf, ht, hh, List.filter_cons] using ih hash
          · have h2 := ih (e.name :: hash)
            simp only [List.mem_cons, true_or, if_true, if_pos] at h2
            simp [addInputs, hf, ht, hh, List.filter_cons, h2]
        · have hn2 : ¬(n = e.name) := fun h => hn h.symm
          by_cases hh : e.name ∈ hash
          · by_cases h : n ∈ hash <;>
              simpa [addInputs, hf, ht, hh, h, hn, hn2, List.filter_cons] using ih hash
          · have h2 := ih (e.name :: hash)
            by_cases h : n ∈ hash <;>
              simp [addInputs, hf, ht, hh, h, hn, hn2, List.filter_cons] at h2 ⊢ <;>
              exact h2
      · by_cases h : n ∈ hash <;>
          simpa [addInputs, hf, ht, h, List.filter_cons] using ih hash

theorem addInputs_filter_nonradio (es : List FieldElem) :
    ∀ hash : List String,
    (addInputs hash es).filter (fun f => f.type != "radio") =
      es.filter (fun e => !e.filtered && e.type != "radio") := by
  induction es with
  | nil => intro hash; simp [addInputs]
  | cons e rest ih =>
    intro hash
    by_cases hf : e.filtered
    · simp [addInputs, hf, ih hash, List.filter_cons]
    · by_cases ht : e.type = "radio"
      · by_cases hh : e.name ∈ hash
        · simp [addInputs, hf, ht, hh, ih hash, List.filter_cons]
        · simp [addInputs, hf, ht, hh, ih (e.name :: hash), List.filter_cons]
      · simp [addInputs, hf, ht, ih hash, List.filter_cons]

theorem foldl_append_flatMap {A B : Type} (g : A → List B) (l : List A) :
    ∀ acc : List B, l.foldl (fun a v => a ++ g v) acc = acc ++ l.flatMap g := by
  induction l with
  | nil => intro acc; simp
  | cons v rest ih =>
    intro acc
    simp [List.flatMap_cons, ih (acc ++ g v)]

theorem uniqueBy_msg_go (l : List Msg) :
    ∀ acc : List Msg,
    l.foldl (fun acc e => if !(acc.any (fun r => r.message == e.message)) then acc ++ [e] else acc) acc
      = acc ++ dedupByMessage (l.filter (fun e => !(acc.any (fun r => r.message == e.message)))) := by
  induction l with
  | nil => intro acc; simp [dedupByMessage]
  | cons e rest ih =>
    intro acc
    simp only [List.foldl_cons, List.filter_cons]
    by_cases h : (acc.any (fun r => r.message == e.message)) = true
    · simp only [h, Bool.not_true, if_false, Bool.false_eq_true, ite_false]
      exact ih acc
    · have hb : (acc.any (fun r => r.message == e.message)) = false := by
        simpa using h
      simp only [hb, Bool.not_false, if_true, ite_true]
      rw [ih (acc ++ [e]), dedupByMessage]
      have hfilter :
          rest.filter (fun x => !((acc ++ [e]).any (fun r => r.message == x.message))) =
            (rest.filter (fun x => !(acc.any (fun r => r.message == x.message)))).filter
              (fun r => r.message != e.message) := by
        rw [List.filter_filter]
        apply List.filter_congr
        intro x _
        simp only [List.any_append, List.any_cons, List.any_nil, Bool.or_false,
          Bool.not_or]
        have hsw : (e.message == x.message) = (x.message == e.message) := by
          by_cases hx : e.message = x.message
          · simp [hx]
          · have hx2 : ¬x.message = e.message := fun hc => hx hc.symm
            simp [hx, hx2]
        rw [hsw]
        simp [bne, Bool.and_comm]
      rw [hfilter]
      simp

theorem uniqueBy_msg_eq_dedup (l : List Msg) :
    uniqueBy (fun e acc => !(acc.any (fun r => r.message == e.message))) l = dedupByMessage l := by
  have := uniqueBy_msg_go l []
  simpa [uniqueBy] using this

theorem dedupByMessage_sublist : ∀ l : List Msg, List.Sublist (dedupByMessage l) l
  | [] => by rw [dedupByMessage]
  | m :: rest => by
    rw [dedupByMessage]
    exact List.Sublist.cons₂ m ((dedupByMessage_sublist _).trans (List.filter_sublist _))
termination_by l => l.length
decreasing_by
  simp only [List.length_cons]
  exact Nat.lt_succ_of_le (List.length_filter_le _ _)

theorem labelToMessage_eq_specResolve (env : MsgEnv) (n : String)
    (locale : Option (String → Option String)) :
    labelToMessage env n locale false = specResolveMessage env n locale := by
  unfold labelToMessage specResolveMessage
  simp only [Bool.not_false, if_true]
  split
  · rfl
  · split
    · split <;> rfl
    · rfl

/-- C1 (counterexample): with the inline default attribute populated
(level (c) of the claimed chain, here resolving to `"msgInlineDefault"`),
no forced locale and no per-validator attribute, `getErrorMessages` for a
failing `required` validator returns the validator-name keyed global entry
`"msgGlobal"` (level (d)), not the higher-precedence-per-the-claim inline
default message: the claimed (c) > (d) ordering is false on the code. -/
theorem c1_message_precedence_counterexample :
    c1Env.inlineCustomErrorMessages "default" = some "msgInlineDefault" ∧
    c1Env.inlineCustomErrorMessages "required" = none ∧
    getErrorMessages c1Env [⟨"required", some ⟨false, none, none, none⟩, [], [], none⟩] none =
      [⟨"msgGlobal", "required", MsgType.basic⟩] ∧
    ("msgGlobal" : String) ≠ "msgInlineDefault" := by decide

/-- C1 (amended): the precedence chain implemented by `labelToMessage`
(hence by the basic entries of `getErrorMessages`) is: (a) message forced
by the caller via the locale argument, (b) inline per-validator attribute
(its value first looked up as a key of `errorMessages`), (c) the
validator-name keyed entry of the global `errorMessages`, (d) the inline
default attribute entry, (e) the global `"default"` entry, (f) the raw
validator name — i.e. the claim's (c) and (d) are swapped; whenever a
higher-precedence source is populated no lower one is returned. -/
theorem c1_message_precedence_amended :
    (∀ (env : MsgEnv) (n : String) (locale : Option (String → Option String)),
      labelToMessage env n locale false = specResolveMessage env n locale) ∧
    (∀ (env : MsgEnv) (n : String) (locale : Option (String → Option String)),
      getErrorMessages env [⟨n, some ⟨false, none, none, none⟩, [], [], none⟩] locale =
        [⟨specResolveMessage env n locale, n, MsgType.basic⟩]) := by
  refine ⟨labelToMessage_eq_specResolve, fun env n locale => ?_⟩
  simp [getErrorMessages, getErrors, ivIsValid, JSVal.truthy, uniqueBy,
    labelToMessage_eq_specResolve]

/-- C2: a `refresh()` scan keeps, among the radio buttons of any one
`name` group, exactly the first unfiltered one (so one `Field` per group
regardless of the group's size, none when the group is absent), while
every unfiltered non-radio candidate yields its own `Field`. -/
theorem c2_radio_group_dedup (candidates : List FieldElem) (n : String) :
    ((refresh candidates).filter (fun f => f.type == "radio" && f.name == n) =
      (candidates.filter (fun e => !e.filtered && (e.type == "radio" && e.name == n))).take 1) ∧
    ((refresh candidates).countP (fun f => f.type == "radio" && f.name == n) =
      if candidates.any (fun e => !e.filtered && (e.type == "radio" && e.name == n)) then 1 else 0) ∧
    ((refresh candidates).filter (fun f => f.type != "radio") =
      candidates.filter (fun e => !e.filtered && e.type != "radio")) := by
  have h1 := addInputs_filter_radio candidates n []
  simp only [List.not_mem_nil, if_false] at h1
  refine ⟨h1, ?_, addInputs_filter_nonradio candidates []⟩
  rw [List.countP_eq_length_filter]
  simp only [refresh]
  rw [h1]
  rcases hq : candidates.filter (fun e => !e.filtered && (e.type == "radio" && e.name == n))
    with _ | ⟨a, l⟩
  · have hany : candidates.any (fun e => !e.filtered && (e.type == "radio" && e.name == n)) = false := by
      by_cases h : candidates.any (fun e => !e.filtered && (e.type == "radio" && e.name == n)) = true
      · rcases List.any_eq_true.mp h with ⟨x, hx, hpx⟩
        have hmem : x ∈ candidates.filter
            (fun e => !e.filtered && (e.type == "radio" && e.name == n)) :=
          List.mem_filter.mpr ⟨hx, hpx⟩
        rw [hq] at hmem
        exact absurd hmem (List.not_mem_nil x)
      · simpa using h
    simp [hq, hany]
  · have hmem : a ∈ candidates.filter (fun e => !e.filtered && (e.type == "radio" && e.name == n)) := by
      rw [hq]; exact List.mem_cons_self a l
    have hpa := List.mem_filter.mp hmem
    have hany : candidates.any (fun e => !e.filtered && (e.type == "radio" && e.name == n)) = true :=
      List.any_eq_true.mpr ⟨a, hpa.1, hpa.2⟩
    simp [hq, hany]

/-- C3: while the run flag is `validating`, a second `validate()` call
leaves the whole state (run flag and field list) unchanged, starts no
field's `isValid()`, fires no callback, and returns a fresh placeholder
promise that nothing ever resolves or rejects. -/
theorem c3_validate_concurrency_guard (s : FormState) (hasErrorF : InputW → Bool)
    (h : s.run = RunState.validating) :
    validateRun s hasErrorF = (s, none, [], []) := by
  simp [validateRun, h]

/-- C3 (witness): the guard at a concrete validating state. -/
theorem c3_validate_concurrency_guard_witness :
    validateRun ⟨RunState.validating, [⟨1⟩], 7, true, true⟩ (fun _ => true) =
      (⟨RunState.validating, [⟨1⟩], 7, true, true⟩, none, [], []) :=
  c3_validate_concurrency_guard _ _ rfl

/-- C4 (counterexample): with the run flag already `validating`,
`validateField` on a known field is not a no-op: it starts that field
wrapper's `isValid()` (the claimed state-machine guard does not exist in
`validateField`). -/
theorem c4_validateField_no_guard_counterexample :
    c4State.run = RunState.validating ∧
    validateFieldStart c4State 1 = (c4State, VFStart.started ⟨1⟩) ∧
    VFStart.started ⟨1⟩ ≠ VFStart.resolvedEmpty := by decide

/-- C4 (amended): `validateField` performs no idle/validating check at
all: whatever the run flag, on a known field it sets the flag to
`validating` and starts that field's validation. -/
theorem c4_validateField_no_guard_amended (s : FormState) (el : Nat) (i : InputW)
    (h : getFieldValidator s.inputs el = some i) :
    validateFieldStart s el = ({ s with run := RunState.validating }, VFStart.started i) := by
  simp [validateFieldStart, h]

/-- C4 (witness): the amended behaviour at a concrete known field. -/
theorem c4_validateField_no_guard_amended_witness :
    validateFieldStart ⟨RunState.idle, [⟨1⟩], 0, false, false⟩ 1 =
      (⟨RunState.validating, [⟨1⟩], 0, false, false⟩, VFStart.started ⟨1⟩) :=
  c4_validateField_no_guard_amended _ _ _ (by decide)

/-- C5 (counterexample): when the validator function's promise rejects,
the promise returned by `InputValidator.validate()` is never settled — in
particular it does not resolve, contradicting the claim that it always
resolves for every validator outcome. -/
theorem c5_input_validate_promise_counterexample :
    (ivValidate ⟨"required", none, [], [], none⟩ VFOutcome.rejectedFn).promFate = none ∧
    (none : Option SettleKind) ≠ some SettleKind.resolve := by decide

/-- C5 (amended): the promise returned by `InputValidator.validate()`
never rejects, and it resolves exactly when the validator function's
promise fulfills (pass and fail alike); a rejecting validator promise
leaves it unsettled forever, and a synchronously-throwing validator
function makes `validate()` itself throw before any promise is returned. -/
theorem c5_input_validate_promise_amended (iv : IVState) (outcome : VFOutcome) :
    (ivValidate iv outcome).promFate ≠ some SettleKind.reject ∧
    ((ivValidate iv outcome).promFate = some SettleKind.resolve ↔
      ∃ st, outcome = VFOutcome.fulfilled st) ∧
    ((ivValidate iv outcome).threw = true ↔ outcome = VFOutcome.threwFn) := by
  cases outcome <;> simp [ivValidate]

/-- C6: a `validate()` run from idle whose validators all settle fires
exactly one configured callback and settles the promise exactly once:
with at least one invalid field it invokes `onInvalidate` and rejects
with all fields, the failing fields and the container; with none it
invokes `onValidate` and resolves with all fields, an empty failing list
and the container. Rejection is a `prom.reject` data settlement, never a
throw. -/
theorem c6_process_settlement (s : FormState) (hasErrorF : InputW → Bool)
    (hidle : s.run = RunState.idle)
    (hval : s.hasOnValidate = true) (hinv : s.hasOnInvalidate = true) :
    (s.inputs.any hasErrorF = true →
      validateRun s hasErrorF =
        ({ s with run := RunState.idle },
          some (Settlement.rejected ⟨s.inputs, s.inputs.filter hasErrorF, s.formId⟩),
          s.inputs, [CB.onInvalidate])) ∧
    (s.inputs.any hasErrorF = false →
      validateRun s hasErrorF =
        ({ s with run := RunState.idle },
          some (Settlement.resolved ⟨s.inputs, [], s.formId⟩),
          s.inputs, [CB.onValidate])) := by
  constructor
  · intro hany
    have hne : (s.inputs.filter hasErrorF).length ≠ 0 := by
      rcases List.any_eq_true.mp hany with ⟨x, hx, hpx⟩
      have hmem : x ∈ s.inputs.filter hasErrorF := List.mem_filter.mpr ⟨hx, hpx⟩
      intro h0
      rw [List.length_eq_zero.mp h0] at hmem
      exact absurd hmem (List.not_mem_nil x)
    simp [validateRun, hidle, processSettle, hne, hinv]
  · intro hany
    have hnil : s.inputs.filter hasErrorF = [] := by
      rw [List.filter_eq_nil_iff]
      intro x hx
      intro hpx
      have := List.any_eq_true.mpr ⟨x, hx, hpx⟩
      rw [hany] at this
      cases this
    simp [validateRun, hidle, processSettle, hnil, hval]

/-- C6 (witness): a concrete run with one failing field rejects with the
failing subset and fires only `onInvalidate`. -/
theorem c6_process_settlement_witness :
    validateRun ⟨RunState.idle, [⟨1⟩, ⟨2⟩], 7, true, true⟩ (fun i => i.el == 2) =
      (⟨RunState.idle, [⟨1⟩, ⟨2⟩], 7, true, true⟩,
        some (Settlement.rejected ⟨[⟨1⟩, ⟨2⟩], [⟨2⟩], 7⟩), [⟨1⟩, ⟨2⟩], [CB.onInvalidate]) :=
  ((c6_process_settlement ⟨RunState.idle, [⟨1⟩, ⟨2⟩], 7, true, true⟩ (fun i => i.el == 2)
      rfl rfl rfl).1 (by decide)).trans (by decide)

/-- C7: `getErrorMessages` equals one basic entry per failing validator
followed by one extra entry per extra error message it raised, taken in
registry-resolution order of the failing validators, then deduplicated by
message text keeping first occurrences (so the output is an
order-preserving sublist of the raw list); with validators A (fails),
B (passes), C (fails) in that order, A's messages precede C's, and two
failing validators with the identical message yield one entry. -/
theorem c7_error_messages_order_dedup :
    (∀ (env : MsgEnv) (validators : List IVState) (locale : Option (String → Option String)),
      getErrorMessages env validators locale =
        dedupByMessage (specRawMessages env locale (getErrors validators))) ∧
    (∀ (env : MsgEnv) (validators : List IVState) (locale : Option (String → Option String)),
      List.Sublist (getErrorMessages env validators locale)
        (specRawMessages env locale (getErrors validators))) ∧
    (getErrorMessages emptyMsgEnv
        [⟨"A", some ⟨false, none, none, none⟩, [], [], none⟩,
         ⟨"B", some ⟨true, none, none, none⟩, [], [], none⟩,
         ⟨"C", some ⟨false, none, none, none⟩, [], ["e"], none⟩] none =
      [⟨"A", "A", MsgType.basic⟩, ⟨"C", "C", MsgType.basic⟩, ⟨"e", "C", MsgType.extra⟩]) ∧
    (getErrorMessages emptyMsgEnv
        [⟨"A", some ⟨false, none, none, none⟩, [], [], none⟩,
         ⟨"A", some ⟨false, none, none, none⟩, [], [], none⟩] none =
      [⟨"A", "A", MsgType.basic⟩]) := by
  have hmain : ∀ (env : MsgEnv) (validators : List IVState)
      (locale : Option (String → Option String)),
      getErrorMessages env validators locale =
        dedupByMessage (specRawMessages env locale (getErrors validators)) := by
    intro env validators locale
    by_cases h : (getErrors validators).length = 0
    · have hnil : getErrors validators = [] := List.length_eq_zero.mp h
      simp [getErrorMessages, h, hnil, specRawMessages, dedupByMessage]
    · simp only [getErrorMessages, if_neg h]
      rw [uniqueBy_msg_eq_dedup]
      congr 1
      have := foldl_append_flatMap
        (fun v : IVState =>
          Msg.mk (labelToMessage env v.name locale false) v.name MsgType.basic ::
            v.extraErrorMessages.map
              (fun m => Msg.mk (labelToMessage env m locale true) v.name MsgType.extra))
        (getErrors validators) []
      simpa [specRawMessages] using this
  refine ⟨hmain, fun env validators locale => ?_, by decide, by decide⟩
  rw [hmain]
  exact dedupByMessage_sublist _

/-- C8 (counterexample): on an `InputValidator` that never completed a
run, `isValid()` returns `undefined`, which is not the boolean `false`
the claim promises. -/
theorem c8_isValid_counterexample :
    ivIsValid ⟨"required", none, [], [], none⟩ = JSVal.undef ∧
    JSVal.undef ≠ JSVal.jsBool false := by decide

/-- C8 (amended): before any completed run `isValid()` returns
`undefined` (a falsy value, but not the boolean `false`); after a
completed run it returns exactly the `isValid` flag stored by that run. -/
theorem c8_isValid_amended (iv : IVState) :
    (iv.state = none → ivIsValid iv = JSVal.undef) ∧
    (∀ st : VResultState, iv.state = some st → ivIsValid iv = JSVal.jsBool st.isValid) ∧
    (∀ st : VResultState,
      ivIsValid (ivValidate iv (VFOutcome.fulfilled st)).newState = JSVal.jsBool st.isValid) :=
  ⟨fun h => by simp [ivIsValid, h],
    fun st h => by simp [ivIsValid, h],
    fun st => by simp [ivIsValid, ivValidate]⟩

/-- C8 (witness): a completed run with `isValid: true` is reported back
exactly. -/
theorem c8_isValid_amended_witness :
    ivIsValid ⟨"required", some ⟨true, none, none, none⟩, [], [], none⟩ = JSVal.jsBool true :=
  (c8_isValid_amended _).2.1 _ rfl

/-- C9: `isDate("31/02/2020", "d/m/y")` is false — the constructed date
rolls over to March 2 2020 (month index 2, day 2), so the read-back
components no longer match; the `date` validator therefore reports this
non-empty value invalid. -/
theorem c9_isDate_feb31 :
    isDate "31/02/2020" "d/m/y" = false ∧
    jsDateNorm 2020 1 31 = (2020, 2, 2) ∧
    dateValidatorIsValid "31/02/2020" "d/m/y" = false := by
  refine ⟨by decide, by decide, by decide⟩

/-- C10: `validateField` on an element with no wrapper in the current
field list returns `Promise.resolve()` immediately: no validation is
started and the run flag and field list are untouched. -/
theorem c10_validateField_unknown (s : FormState) (el : Nat)
    (h : getFieldValidator s.inputs el = none) :
    validateFieldStart s el = (s, VFStart.resolvedEmpty) := by
  simp [validateFieldStart, h]

/-- C10 (witness): a concrete lookup miss. -/
theorem c10_validateField_unknown_witness :
    validateFieldStart ⟨RunState.idle, [⟨1⟩], 7, false, false⟩ 2 =
      (⟨RunState.idle, [⟨1⟩], 7, false, false⟩, VFStart.resolvedEmpty) :=
  c10_validateField_unknown _ _ (by decide)

end FrontLib
